import Mathlib

/-!
Verification of the task-manager backend (src/main.py) against its
natural-language specification.

The SQLite `tasks` table is modelled as a list of rows in rowid order
together with the AUTOINCREMENT sequence value (`sqlite_sequence`).  Each
Python function over the database becomes a pure Lean function over this
state; fallible operations return `Except PyErr`.  String results are
built exactly as the Python f-strings and `json.dumps` calls build them.
-/

namespace TaskManager

/-- A row of the `tasks` table: `(id, description, progress)`. -/
structure Task where
  id : Int
  description : String
  progress : Int
deriving Repr, DecidableEq

/-- Default row used with `List.getD` when indexing task lists. -/
def d0 : Task := { id := 0, description := "", progress := 0 }

/-- The SQLite database state: the rows of `tasks` in rowid order, and the
AUTOINCREMENT sequence value (the largest rowid ever assigned). -/
structure DB where
  tasks : List Task
  seq : Int
deriving Repr, DecidableEq

/-- The freshly created database: empty table, sequence at 0. -/
def emptyDB : DB := { tasks := [], seq := 0 }

/-- Python-level failures surfaced by the storage layer. -/
inductive PyErr where
  /-- `sqlite3.IntegrityError`: NOT NULL constraint failed. -/
  | integrityErr
  /-- `AttributeError`: method call on the `None` global connection. -/
  | attrNone
deriving Repr, DecidableEq

/-- Largest rowid currently present in the table (0 when empty). -/
def maxRowid (ts : List Task) : Int := ts.foldr (fun t m => max t.id m) 0

/-- The rowid SQLite AUTOINCREMENT assigns to the next insert: one more
than the larger of the sequence value and the largest current rowid. -/
def newId (db : DB) : Int := max db.seq (maxRowid db.tasks) + 1

/-- `INSERT INTO tasks(description) VALUES (?)` with a possibly-NULL bound
parameter.  A NULL description violates the `description TEXT NOT NULL`
constraint and raises; any string value (the empty string included)
satisfies NOT NULL and inserts a row with the default `progress` 0. -/
def insertTaskOpt (db : DB) (d : Option String) : Except PyErr (DB × Int) :=
  match d with
  | none => .error .integrityErr
  | some s =>
      .ok ({ tasks := db.tasks ++ [{ id := newId db, description := s, progress := 0 }],
             seq := newId db }, newId db)

/-- `add_task_db`: insert a row for `description` (a Python `str`, never
NULL) and return the new state with `cursor.lastrowid`. -/
def add_task_db (db : DB) (description : String) : DB × Int :=
  ({ tasks := db.tasks ++ [{ id := newId db, description := description, progress := 0 }],
     seq := newId db }, newId db)

/-- `update_task_db`: `UPDATE tasks SET progress = ? WHERE id = ?`;
returns the new state with `cursor.rowcount > 0`. -/
def update_task_db (db : DB) (task_id progress : Int) : DB × Bool :=
  let rowcount := db.tasks.countP (fun t => t.id == task_id)
  ({ db with tasks := db.tasks.map (fun t => if t.id == task_id then { t with progress := progress } else t) },
   decide (0 < rowcount))

/-- `delete_task_db`: `DELETE FROM tasks WHERE id = ?`; returns the new
state with `cursor.rowcount > 0`. -/
def delete_task_db (db : DB) (task_id : Int) : DB × Bool :=
  let rowcount := db.tasks.countP (fun t => t.id == task_id)
  ({ db with tasks := db.tasks.filter (fun t => t.id != task_id) },
   decide (0 < rowcount))

/-- `list_tasks_db`: `SELECT id, description, progress FROM tasks`, rows in
rowid order. -/
def list_tasks_db (db : DB) : List (Int × String × Int) :=
  db.tasks.map (fun t => (t.id, t.description, t.progress))

/-- The apostrophe character as a string (used by the `add_task` reply). -/
def sq : String := String.singleton (Char.ofNat 39)

/-- Tool `add_task`: insert and reply `Added task {id}: '{description}'`. -/
def add_task (db : DB) (description : String) : DB × String :=
  let r := add_task_db db description
  (r.1, "Added task " ++ toString r.2 ++ ": " ++ sq ++ description ++ sq)

/-- Tool `update_task`: reply `Updated task {id} to progress {p}%` on
success, `Task {id} not found.` otherwise. -/
def update_task (db : DB) (task_id progress : Int) : DB × String :=
  let r := update_task_db db task_id progress
  (r.1, if r.2 then "Updated task " ++ toString task_id ++ " to progress " ++ toString progress ++ "%"
        else "Task " ++ toString task_id ++ " not found.")

/-- Tool `delete_task`: reply `Deleted task {id}.` on success,
`Task {id} not found.` otherwise. -/
def delete_task (db : DB) (task_id : Int) : DB × String :=
  let r := delete_task_db db task_id
  (r.1, if r.2 then "Deleted task " ++ toString task_id ++ "."
        else "Task " ++ toString task_id ++ " not found.")

/-- Tool `list_tasks`: newline-joined `id: description (progress%)` lines,
or `No tasks found.` when the table is empty. -/
def list_tasks (db : DB) : String :=
  let tasks := list_tasks_db db
  if tasks.isEmpty then "No tasks found."
  else String.intercalate "\n" (tasks.map (fun r => toString r.1 ++ ": " ++ r.2.1 ++ " (" ++ toString r.2.2 ++ "%)"))

/-- Lowercase hexadecimal digit, as produced by Python `json.dumps`. -/
def hexDigit (n : Nat) : Char :=
  if n < 10 then Char.ofNat (48 + n) else Char.ofNat (87 + n)

/-- A `\uXXXX` escape for a 16-bit code unit. -/
def uEscape (n : Nat) : String :=
  "\\u" ++ String.mk [hexDigit (n / 4096 % 16), hexDigit (n / 256 % 16),
                      hexDigit (n / 16 % 16), hexDigit (n % 16)]

/-- How Python `json.dumps` (default `ensure_ascii=True`) renders one
character inside a JSON string literal. -/
def escChar (c : Char) : String :=
  let n := c.toNat
  if n = 34 then "\\\""
  else if n = 92 then "\\\\"
  else if n = 8 then "\\b"
  else if n = 9 then "\\t"
  else if n = 10 then "\\n"
  else if n = 12 then "\\f"
  else if n = 13 then "\\r"
  else if n < 32 then uEscape n
  else if n < 128 then String.singleton c
  else if n < 65536 then uEscape n
  else uEscape (55296 + (n - 65536) / 1024) ++ uEscape (56320 + (n - 65536) % 1024)

/-- Python `json.dumps` rendering of a string value. -/
def pyJsonStr (s : String) : String :=
  String.singleton (Char.ofNat 34) ++ String.join (s.data.map escChar) ++ String.singleton (Char.ofNat 34)

/-- JSON values used by this program: integers and strings only. -/
inductive JVal where
  | jint : Int → JVal
  | jstr : String → JVal
deriving Repr, DecidableEq

/-- Python `json.dumps` rendering of one value. -/
def JVal.dump : JVal → String
  | .jint n => toString n
  | .jstr s => pyJsonStr s

/-- Python `json.dumps` of a dict with the given key order (default
separators: comma-space and colon-space). -/
def jsonDumpsObj (kvs : List (String × JVal)) : String :=
  "\x7b" ++ String.intercalate ", " (kvs.map (fun kv => pyJsonStr kv.1 ++ ": " ++ JVal.dump kv.2)) ++ "\x7d"

/-- Python `json.dumps` of a list whose elements render to the given
strings. -/
def jsonDumpsArr (xs : List String) : String :=
  "[" ++ String.intercalate ", " xs ++ "]"

/-- Resource `tasks://all`: reads the global connection `_db` (modelled as
`Option DB`); with `_db = None` the unguarded `None.execute` call raises,
otherwise every row is returned as a JSON array of objects. -/
def get_all_tasks (gdb : Option DB) : Except PyErr String :=
  match gdb with
  | none => .error .attrNone
  | some db =>
      .ok (jsonDumpsArr ((list_tasks_db db).map (fun r =>
        jsonDumpsObj [("id", .jint r.1), ("description", .jstr r.2.1), ("progress", .jint r.2.2)])))

/-- Resource `tasks://{task_id}`: reads the global connection `_db`; with
`_db = None` the unguarded `None.execute` call raises; otherwise
`SELECT ... WHERE id = ?` / `fetchone` returns the first matching row,
rendered as `{id, description, progress}`, or `{error, id}` when absent. -/
def get_task (gdb : Option DB) (task_id : Int) : Except PyErr String :=
  match gdb with
  | none => .error .attrNone
  | some db =>
      match db.tasks.find? (fun t => t.id == task_id) with
      | none => .ok (jsonDumpsObj [("error", .jstr "Task not found"), ("id", .jint task_id)])
      | some t => .ok (jsonDumpsObj [("id", .jint t.id), ("description", .jstr t.description), ("progress", .jint t.progress)])

/-- Resource `config://task-priorities`: a constant JSON object; the
function takes no database state at all. -/
def task_priorities : String :=
  jsonDumpsObj [("low", .jint 0), ("medium", .jint 1), ("high", .jint 2)]

/-- `ensure_db_exists`: the filesystem at the database path is `none` (no
file) or `some db` (a SQLite file holding state `db`).  When no file
exists, the file and the `tasks` table are created; when the file exists,
nothing at all is done.  The function is total: it never errors. -/
def ensure_db_exists : Option DB → Option DB
  | none => some emptyDB
  | some db => some db

/-- The lifecycle of the shared connection managed by `app_lifespan`. -/
inductive LifeState where
  | uninit
  | ready (db : DB)
deriving Repr, DecidableEq

/-- Whether the lifespan is in the READY state. -/
def LifeState.isReady : LifeState → Bool
  | .uninit => false
  | .ready _ => true

/-- The module-level global `_db`: `None` outside the READY state, the
shared connection inside it. -/
def dbGlobal : LifeState → Option DB
  | .uninit => none
  | .ready db => some db

/-- An inbound mutating operation. -/
inductive Op where
  | add (d : String)
  | upd (i p : Int)
  | del (i : Int)
deriving Repr, DecidableEq

/-- The state transition of one operation (the tool wrappers mutate the
store exactly as the `_db` core functions do). -/
def applyOp (db : DB) : Op → DB
  | .add d => (add_task_db db d).1
  | .upd i p => (update_task_db db i p).1
  | .del i => (delete_task_db db i).1

/-- Whether `op` is a delete aimed at id `i`. -/
def opDeletesId : Op → Int → Bool
  | .del j, i => j == i
  | _, _ => false

/-- One step of a run, also recording every id an insert assigns. -/
def stepH : DB × List Int → Op → DB × List Int
  | (db, as), .add d => ((add_task_db db d).1, as ++ [(add_task_db db d).2])
  | (db, as), .upd i p => ((update_task_db db i p).1, as)
  | (db, as), .del i => ((delete_task_db db i).1, as)

/-- Run a sequence of operations from the empty store, recording assigned
ids in order. -/
def runH (ops : List Op) : DB × List Int :=
  ops.foldl stepH (emptyDB, [])

/-- Sample store: one task, id 1, progress 0. -/
def dbA : DB := { tasks := [{ id := 1, description := "write spec", progress := 0 }], seq := 1 }

/-- Sample store: one task, id 1, progress 50. -/
def db1 : DB := { tasks := [{ id := 1, description := "write spec", progress := 50 }], seq := 1 }

theorem maxRowid_cons (a : Task) (ts : List Task) :
    maxRowid (a :: ts) = max a.id (maxRowid ts) := rfl

theorem le_maxRowid {t : Task} {ts : List Task} (h : t ∈ ts) : t.id ≤ maxRowid ts := by
  induction ts with
  | nil => cases h
  | cons a ts ih =>
      rw [maxRowid_cons]
      rcases List.mem_cons.mp h with rfl | h
      · exact le_max_left _ _
      · exact le_trans (ih h) (le_max_right _ _)

theorem seq_lt_newId (db : DB) : db.seq < newId db := by
  unfold newId
  have := le_max_left db.seq (maxRowid db.tasks)
  omega

theorem mem_lt_newId {db : DB} {t : Task} (h : t ∈ db.tasks) : t.id < newId db := by
  have h1 := le_maxRowid h
  have h2 := le_max_right db.seq (maxRowid db.tasks)
  unfold newId
  omega

/-- C1: for every non-empty description `d`, `add_task` appends exactly one
new row holding `d` with progress 0, under the fresh id `newId db` that no
task of the prior state carries, replies with the exact confirmation string
`Added task {id}: '{d}'`, and a subsequent list includes the new record. -/
theorem add_task_spec (db : DB) (d : String) (hd : d ≠ "") :
    (add_task db d).2 = "Added task " ++ toString (newId db) ++ ": " ++ sq ++ d ++ sq ∧
    (add_task db d).1.tasks = db.tasks ++ [{ id := newId db, description := d, progress := 0 }] ∧
    (∀ t ∈ db.tasks, t.id ≠ newId db) ∧
    (newId db, d, (0 : Int)) ∈ list_tasks_db (add_task db d).1 := by
  refine ⟨rfl, rfl, ?_, ?_⟩
  · intro t ht
    exact ne_of_lt (mem_lt_newId ht)
  · simp [list_tasks_db, add_task, add_task_db]

/-- C1 witness: adding `write spec` to the empty store. -/
theorem add_task_spec_witness :
    ("write spec" ≠ "") ∧
    ((add_task emptyDB "write spec").2 =
        "Added task " ++ toString (newId emptyDB) ++ ": " ++ sq ++ "write spec" ++ sq ∧
     (add_task emptyDB "write spec").1.tasks =
        emptyDB.tasks ++ [{ id := newId emptyDB, description := "write spec", progress := 0 }] ∧
     (∀ t ∈ emptyDB.tasks, t.id ≠ newId emptyDB) ∧
     (newId emptyDB, "write spec", (0 : Int)) ∈ list_tasks_db (add_task emptyDB "write spec").1) :=
  ⟨by decide, add_task_spec emptyDB "write spec" (by decide)⟩

/-- C4 counterexample: the empty string is not NULL, so the NOT NULL
constraint accepts it: inserting description `""` succeeds and adds one
row, contradicting the claim that `add` with the empty string fails with a
constraint error and inserts no row. -/
theorem insert_empty_string_inserts :
    insertTaskOpt emptyDB (some "") =
      Except.ok ({ tasks := [{ id := 1, description := "", progress := 0 }], seq := 1 }, 1) ∧
    (add_task emptyDB "").1.tasks.length = 1 :=
  ⟨rfl, rfl⟩

/-- C4 amended: a NULL description violates the NOT NULL constraint and
the failure propagates to the caller with no row inserted; any string
description, the empty string included, satisfies the constraint and
inserts exactly one row. -/
theorem insert_null_fails (db : DB) :
    insertTaskOpt db none = Except.error PyErr.integrityErr ∧
    (∀ d : String, insertTaskOpt db (some d) = Except.ok (add_task_db db d) ∧
      (add_task_db db d).1.tasks =
        db.tasks ++ [{ id := newId db, description := d, progress := 0 }]) :=
  ⟨rfl, fun _ => ⟨rfl, rfl⟩⟩

/-- C6: `ensure_db_exists` is idempotent and total (never errors), and when
the backing file already exists it performs no action at all. -/
theorem ensure_db_exists_idempotent (fs : Option DB) :
    ensure_db_exists (ensure_db_exists fs) = ensure_db_exists fs ∧
    (∀ db : DB, ensure_db_exists (some db) = some db) := by
  refine ⟨?_, fun _ => rfl⟩
  cases fs <;> rfl

/-- C8: the priorities resource is a constant taking no store state (the
definition has no `DB` argument, so its value cannot depend on any store
state) and returns exactly the JSON object with low 0, medium 1, high 2. -/
theorem task_priorities_spec :
    task_priorities = "\x7b\"low\": 0, \"medium\": 1, \"high\": 2\x7d" := by decide

/-- C10: the global `_db` is `None` exactly outside the READY lifespan
state; invoking either resource there hits the unguarded `None` connection
and fails instead of returning a JSON payload, while under an active
lifespan (READY) both resources return a payload. -/
theorem resources_need_ready (ls : LifeState) (i : Int) (db : DB) :
    (dbGlobal ls).isSome = LifeState.isReady ls ∧
    dbGlobal LifeState.uninit = none ∧
    dbGlobal (LifeState.ready db) = some db ∧
    get_task (dbGlobal LifeState.uninit) i = Except.error PyErr.attrNone ∧
    get_all_tasks (dbGlobal LifeState.uninit) = Except.error PyErr.attrNone ∧
    (get_task (dbGlobal (LifeState.ready db)) i).isOk = true ∧
    (get_all_tasks (dbGlobal (LifeState.ready db))).isOk = true := by
  refine ⟨?_, rfl, rfl, rfl, rfl, ?_, rfl⟩
  · cases ls <;> rfl
  · cases h : db.tasks.find? (fun t => t.id == i) <;>
      simp [get_task, dbGlobal, h, Except.isOk, Except.toBool]

theorem updRow_id (i p : Int) (t : Task) :
    (if t.id == i then { t with progress := p } else t).id = t.id := by
  split <;> rfl

theorem updRow_descr (i p : Int) (t : Task) :
    (if t.id == i then { t with progress := p } else t).description = t.description := by
  split <;> rfl

/-- C2: when a task with id `i` exists, `update_task` replies with the
exact success string, keeps the sequence value and the number of rows, and
rewrites row by row: every row keeps its id and description, a row whose id
is `i` gets progress exactly `p`, and every other row keeps its progress. -/
theorem update_task_found (db : DB) (i p : Int) (h : ∃ t ∈ db.tasks, t.id = i) :
    (update_task db i p).2 = "Updated task " ++ toString i ++ " to progress " ++ toString p ++ "%" ∧
    (update_task db i p).1.seq = db.seq ∧
    (update_task db i p).1.tasks.length = db.tasks.length ∧
    ∀ j : Nat, j < db.tasks.length →
      ((update_task db i p).1.tasks.getD j d0).id = (db.tasks.getD j d0).id ∧
      ((update_task db i p).1.tasks.getD j d0).description = (db.tasks.getD j d0).description ∧
      ((update_task db i p).1.tasks.getD j d0).progress =
        (if (db.tasks.getD j d0).id = i then p else (db.tasks.getD j d0).progress) := by
  have hcnt : 0 < db.tasks.countP (fun t => t.id == i) := by
    rcases h with ⟨t, ht, hti⟩
    exact List.countP_pos_iff.mpr ⟨t, ht, by simp [hti]⟩
  have hmap : ∀ j : Nat, j < db.tasks.length →
      (update_task db i p).1.tasks.getD j d0 =
        (if (db.tasks.getD j d0).id == i then { db.tasks.getD j d0 with progress := p }
         else db.tasks.getD j d0) := by
    intro j hj
    have hj' : db.tasks[j]? = some db.tasks[j] := List.getElem?_eq_getElem hj
    simp [update_task, update_task_db, List.getD_eq_getElem?_getD, List.getElem?_map, hj']
  refine ⟨by simp [update_task, update_task_db, hcnt], rfl,
          by simp [update_task, update_task_db], ?_⟩
  intro j hj
  rw [hmap j hj]
  refine ⟨updRow_id i p _, updRow_descr i p _, ?_⟩
  by_cases hc : (db.tasks.getD j d0).id = i <;>
    rw [List.getD_eq_getElem?_getD] at hc <;> simp [hc]

/-- C2 witness: updating the only task of the sample store to progress 50. -/
theorem update_task_found_witness :
    (∃ t ∈ dbA.tasks, t.id = (1 : Int)) ∧
    ((update_task dbA 1 50).2 =
        "Updated task " ++ toString (1 : Int) ++ " to progress " ++ toString (50 : Int) ++ "%" ∧
     (update_task dbA 1 50).1.seq = dbA.seq ∧
     (update_task dbA 1 50).1.tasks.length = dbA.tasks.length ∧
     ∀ j : Nat, j < dbA.tasks.length →
       ((update_task dbA 1 50).1.tasks.getD j d0).id = (dbA.tasks.getD j d0).id ∧
       ((update_task dbA 1 50).1.tasks.getD j d0).description = (dbA.tasks.getD j d0).description ∧
       ((update_task dbA 1 50).1.tasks.getD j d0).progress =
         (if (dbA.tasks.getD j d0).id = 1 then 50 else (dbA.tasks.getD j d0).progress)) :=
  ⟨by decide, update_task_found dbA 1 50 (by decide)⟩

/-- C3: when no task has id `i`, `update_task` leaves the store state
completely unchanged and replies with the exact not-found string; the
result is a normal return value, not a raised error (the function is
total). -/
theorem update_task_missing (db : DB) (i p : Int) (h : ∀ t ∈ db.tasks, t.id ≠ i) :
    (update_task db i p).1 = db ∧
    (update_task db i p).2 = "Task " ++ toString i ++ " not found." := by
  have hcnt : db.tasks.countP (fun t => t.id == i) = 0 := by
    rw [List.countP_eq_zero]
    intro t ht
    simp [h t ht]
  constructor
  · have hm : db.tasks.map (fun t => if t.id == i then { t with progress := p } else t)
        = db.tasks := by
      conv_rhs => rw [← List.map_id db.tasks]
      exact List.map_congr_left (fun t ht => by simp [h t ht])
    show ({ db with tasks := db.tasks.map _ } : DB) = db
    rw [hm]
  · simp [update_task, update_task_db, hcnt]

/-- C3 witness: updating absent id 2 in the sample store. -/
theorem update_task_missing_witness :
    (∀ t ∈ dbA.tasks, t.id ≠ (2 : Int)) ∧
    ((update_task dbA 2 7).1 = dbA ∧
     (update_task dbA 2 7).2 = "Task " ++ toString (2 : Int) ++ " not found.") :=
  ⟨by decide, update_task_missing dbA 2 7 (by decide)⟩

/-- C5: when a task with id `i` exists, `delete_task` replies with the
exact success string and removes exactly the rows with id `i` (no survivor
has id `i`; every other row survives; no row appears from nowhere); a
subsequent `tasks://{id}` lookup returns the not-found payload, and a
second delete replies with the exact not-found string while changing
nothing. -/
theorem delete_task_found (db : DB) (i : Int) (h : ∃ t ∈ db.tasks, t.id = i) :
    (delete_task db i).2 = "Deleted task " ++ toString i ++ "." ∧
    (∀ t ∈ (delete_task db i).1.tasks, t.id ≠ i) ∧
    (∀ t ∈ db.tasks, t.id ≠ i → t ∈ (delete_task db i).1.tasks) ∧
    (∀ t ∈ (delete_task db i).1.tasks, t ∈ db.tasks) ∧
    get_task (some (delete_task db i).1) i =
      Except.ok (jsonDumpsObj [("error", JVal.jstr "Task not found"), ("id", JVal.jint i)]) ∧
    (delete_task (delete_task db i).1 i).2 = "Task " ++ toString i ++ " not found." ∧
    (delete_task (delete_task db i).1 i).1 = (delete_task db i).1 := by
  have hcnt : 0 < db.tasks.countP (fun t => t.id == i) := by
    rcases h with ⟨t, ht, hti⟩
    exact List.countP_pos_iff.mpr ⟨t, ht, by simp [hti]⟩
  have hsurv : ∀ t ∈ (delete_task db i).1.tasks, t.id ≠ i := by
    intro t ht
    have := (List.mem_filter.mp ht).2
    simpa using this
  have hcnt2 : (delete_task db i).1.tasks.countP (fun t => t.id == i) = 0 := by
    rw [List.countP_eq_zero]
    intro t ht
    simp [hsurv t ht]
  have hfind : (delete_task db i).1.tasks.find? (fun t => t.id == i) = none :=
    List.find?_eq_none.mpr (fun t ht => by simp [hsurv t ht])
  refine ⟨by simp [delete_task, delete_task_db, hcnt], hsurv, ?_, ?_, ?_, ?_, ?_⟩
  · intro t ht hti
    exact List.mem_filter.mpr ⟨ht, by simpa using hti⟩
  · intro t ht
    exact (List.mem_filter.mp ht).1
  · simp [get_task, hfind]
  · simp [delete_task, delete_task_db, hcnt2]
  · have hff : (delete_task db i).1.tasks.filter (fun t => t.id != i)
        = (delete_task db i).1.tasks :=
      List.filter_eq_self.mpr (fun t ht => by simp [hsurv t ht])
    show ({ (delete_task db i).1 with tasks := _ } : DB) = (delete_task db i).1
    rw [hff]

/-- C5 witness: deleting task 1 from the sample store, then again. -/
theorem delete_task_found_witness :
    (∃ t ∈ db1.tasks, t.id = (1 : Int)) ∧
    ((delete_task db1 1).2 = "Deleted task " ++ toString (1 : Int) ++ "." ∧
     (∀ t ∈ (delete_task db1 1).1.tasks, t.id ≠ (1 : Int)) ∧
     (∀ t ∈ db1.tasks, t.id ≠ (1 : Int) → t ∈ (delete_task db1 1).1.tasks) ∧
     (∀ t ∈ (delete_task db1 1).1.tasks, t ∈ db1.tasks) ∧
     get_task (some (delete_task db1 1).1) 1 =
       Except.ok (jsonDumpsObj [("error", JVal.jstr "Task not found"), ("id", JVal.jint 1)]) ∧
     (delete_task (delete_task db1 1).1 1).2 = "Task " ++ toString (1 : Int) ++ " not found." ∧
     (delete_task (delete_task db1 1).1 1).1 = (delete_task db1 1).1) :=
  ⟨by decide, delete_task_found db1 1 (by decide)⟩

/-- C9: `tasks://{task_id}` always answers with a normal payload
(`Except.ok`, never an error) on an open connection: the not-found payload
`{error, id}` exactly when no task has id `i`, and the task payload
`{id, description, progress}` of the row `fetchone` returns, which carries
id `i` and belongs to the store. -/
theorem get_task_payload (db : DB) (i : Int) :
    ((∀ t ∈ db.tasks, t.id ≠ i) →
        get_task (some db) i =
          Except.ok (jsonDumpsObj [("error", JVal.jstr "Task not found"), ("id", JVal.jint i)])) ∧
    (∀ t : Task, db.tasks.find? (fun u => u.id == i) = some t →
        t.id = i ∧ t ∈ db.tasks ∧
        get_task (some db) i =
          Except.ok (jsonDumpsObj [("id", JVal.jint t.id), ("description", JVal.jstr t.description),
                                   ("progress", JVal.jint t.progress)])) := by
  constructor
  · intro h
    have hfind : db.tasks.find? (fun u => u.id == i) = none :=
      List.find?_eq_none.mpr (fun t ht => by simp [h t ht])
    simp [get_task, hfind]
  · intro t ht
    have h1 := List.find?_some ht
    have h2 := List.mem_of_find?_eq_some ht
    exact ⟨by simpa using h1, h2, by simp [get_task, ht]⟩

/-- C9 witness: both branches on the sample store (id 2 absent, id 1
present with description `write spec` and progress 50). -/
theorem get_task_payload_witness :
    (∀ t ∈ db1.tasks, t.id ≠ (2 : Int)) ∧
    get_task (some db1) 2 =
      Except.ok (jsonDumpsObj [("error", JVal.jstr "Task not found"), ("id", JVal.jint 2)]) ∧
    ((1 : Int) = 1 ∧
     ({ id := 1, description := "write spec", progress := 50 } : Task) ∈ db1.tasks ∧
     get_task (some db1) 1 =
       Except.ok (jsonDumpsObj [("id", JVal.jint 1), ("description", JVal.jstr "write spec"),
                                ("progress", JVal.jint 50)])) := by
  refine ⟨by decide, (get_task_payload db1 2).1 (by decide), ?_⟩
  simpa using
    (get_task_payload db1 1).2 { id := 1, description := "write spec", progress := 50 } (by rfl)

/-- Invariant of a run: every current id is positive and bounded by the
sequence value, current ids are distinct, every id ever assigned is
positive and bounded by the sequence value, assigned ids strictly increase
in assignment order, and the sequence value is nonnegative. -/
def Inv (s : DB × List Int) : Prop :=
  (∀ t ∈ s.1.tasks, 0 < t.id ∧ t.id ≤ s.1.seq) ∧
  (s.1.tasks.map Task.id).Nodup ∧
  (∀ i ∈ s.2, 0 < i ∧ i ≤ s.1.seq) ∧
  s.2.Pairwise (· < ·) ∧
  0 ≤ s.1.seq

theorem inv_empty : Inv (emptyDB, []) := by
  refine ⟨?_, ?_, ?_, ?_, ?_⟩ <;> simp [emptyDB]

theorem inv_step {s : DB × List Int} (hs : Inv s) (op : Op) : Inv (stepH s op) := by
  obtain ⟨db, as⟩ := s
  obtain ⟨h1, h2, h3, h4, h5⟩ := hs
  cases op with
  | add d =>
      have hseq := seq_lt_newId db
      have h5' : (0 : Int) ≤ db.seq := h5
      have hpos : (0 : Int) < newId db := lt_of_le_of_lt h5' hseq
      simp only [Inv, stepH, add_task_db]
      refine ⟨?_, ?_, ?_, ?_, le_of_lt hpos⟩
      · intro t ht
        rcases List.mem_append.mp ht with ht | ht
        · rcases h1 t ht with ⟨hp, hle⟩
          exact ⟨hp, le_trans hle (le_of_lt hseq)⟩
        · rw [List.mem_singleton] at ht
          subst ht
          exact ⟨hpos, le_refl _⟩
      · rw [List.map_append, List.nodup_append]
        refine ⟨h2, by simp, ?_⟩
        intro a ha hb
        simp only [List.map_cons, List.map_nil, List.mem_singleton] at hb
        rcases List.mem_map.mp ha with ⟨t, ht, rfl⟩
        exact absurd hb (ne_of_lt (mem_lt_newId ht))
      · intro a ha
        rcases List.mem_append.mp ha with ha | ha
        · rcases h3 a ha with ⟨hp, hle⟩
          exact ⟨hp, le_trans hle (le_of_lt hseq)⟩
        · rw [List.mem_singleton] at ha
          subst ha
          exact ⟨hpos, le_refl _⟩
      · rw [List.pairwise_append]
        refine ⟨h4, by simp, ?_⟩
        intro a ha b hb
        rw [List.mem_singleton] at hb
        subst hb
        exact lt_of_le_of_lt (h3 a ha).2 hseq
  | upd i p =>
      simp only [Inv, stepH, update_task_db]
      have hids : (db.tasks.map fun t => if t.id == i then { t with progress := p } else t).map Task.id
          = db.tasks.map Task.id := by
        rw [List.map_map]
        exact List.map_congr_left (fun t _ => updRow_id i p t)
      refine ⟨?_, ?_, h3, h4, h5⟩
      · intro t ht
        rcases List.mem_map.mp ht with ⟨t0, ht0, rfl⟩
        rw [updRow_id]
        exact h1 t0 ht0
      · rw [hids]
        exact h2
  | del i =>
      simp only [Inv, stepH, delete_task_db]
      refine ⟨?_, ?_, h3, h4, h5⟩
      · intro t ht
        exact h1 t (List.mem_filter.mp ht).1
      · exact List.Nodup.sublist (List.Sublist.map Task.id (List.filter_sublist _)) h2

theorem inv_foldl (ops : List Op) : ∀ s, Inv s → Inv (List.foldl stepH s ops) := by
  induction ops with
  | nil => intro s hs; exact hs
  | cons op ops ih => intro s hs; exact ih _ (inv_step hs op)

theorem inv_runH (ops : List Op) : Inv (runH ops) :=
  inv_foldl ops _ inv_empty

/-- C7: in every state reachable from the empty store, all task ids are
strictly positive and pairwise distinct, and the ids assigned by inserts
strictly increase over the whole run (each new id exceeds every previously
assigned one, so ids are never reused even after deletion); moreover no
operation rewrites an existing task's id: on any store, each task either
survives the operation with id and description intact or the operation is
the delete aimed at its id. -/
theorem task_id_invariants (ops : List Op) (db : DB) (op : Op) :
    ((runH ops).1.tasks.all (fun t => decide (0 < t.id)) = true) ∧
    ((runH ops).1.tasks.map Task.id).Nodup ∧
    (runH ops).2.Pairwise (· < ·) ∧
    (db.tasks.all (fun t =>
        (applyOp db op).tasks.any (fun u => u.id == t.id && u.description == t.description)
        || opDeletesId op t.id) = true) := by
  obtain ⟨h1, h2, h3, h4, h5⟩ := inv_runH ops
  refine ⟨?_, h2, h4, ?_⟩
  · rw [List.all_eq_true]
    intro t ht
    exact decide_eq_true (h1 t ht).1
  · rw [List.all_eq_true]
    intro t ht
    rw [Bool.or_eq_true]
    cases op with
    | add d =>
        left
        simp only [applyOp, add_task_db]
        rw [List.any_eq_true]
        exact ⟨t, List.mem_append_left _ ht, by simp⟩
    | upd i p =>
        left
        simp only [applyOp, update_task_db]
        rw [List.any_eq_true]
        refine ⟨if t.id == i then { t with progress := p } else t, List.mem_map_of_mem _ ht, ?_⟩
        rw [updRow_id, updRow_descr]
        simp
    | del j =>
        by_cases hc : t.id = j
        · right
          simp [opDeletesId, hc]
        · left
          simp only [applyOp, delete_task_db]
          rw [List.any_eq_true]
          refine ⟨t, ?_, by simp⟩
          exact List.mem_filter.mpr ⟨ht, by simp [hc]⟩

end TaskManager
